import Mathlib

/-!
Verification development for the RaspZero servo-control backend.

The Python sources under `backend/` are shallowly embedded as Lean
definitions: dictionaries become association lists, floats become real
numbers, and methods that mutate objects become functions returning the
updated state.  The PCA9685 hardware driver (the third-party
`adafruit_motor.servo` layer) is not part of the repository; its
angle-to-pulse behaviour is modelled from the specification.
-/

noncomputable section

namespace RaspZero

/-- Association-list lookup mirroring Python dictionary indexing
(`d[k]` / `k in d`): returns the value stored under the first matching
key, or `none`. -/
def lookupKey {κ α : Type _} [DecidableEq κ] : List (κ × α) → κ → Option α
  | [], _ => none
  | (k0, v) :: rest, k => if k = k0 then some v else lookupKey rest k

/-- Association-list update mirroring Python dictionary assignment
(`d[k] = v`): replaces the binding if the key is present, otherwise
appends it. -/
def setKey {κ α : Type _} [DecidableEq κ] : List (κ × α) → κ → α → List (κ × α)
  | [], k, v => [(k, v)]
  | (k0, v0) :: rest, k, v =>
      if k0 = k then (k, v) :: rest else (k0, v0) :: setKey rest k v

/-- Association-list deletion mirroring Python `del d[k]`. -/
def eraseKey {κ α : Type _} [DecidableEq κ] : List (κ × α) → κ → List (κ × α)
  | [], _ => []
  | (k0, v0) :: rest, k => if k0 = k then rest else (k0, v0) :: eraseKey rest k

theorem lookupKey_setKey_self {κ α : Type _} [DecidableEq κ]
    (l : List (κ × α)) (k : κ) (v : α) : lookupKey (setKey l k v) k = some v := by
  induction l with
  | nil => simp [setKey, lookupKey]
  | cons hd tl ih =>
      obtain ⟨k0, v0⟩ := hd
      by_cases h : k0 = k
      · subst h; simp [setKey, lookupKey]
      · simp only [setKey, if_neg h, lookupKey]
        rw [if_neg (fun hkk => h hkk.symm)]
        exact ih

theorem lookupKey_setKey_ne {κ α : Type _} [DecidableEq κ]
    (l : List (κ × α)) (k k2 : κ) (v : α) (h : k2 ≠ k) :
    lookupKey (setKey l k v) k2 = lookupKey l k2 := by
  induction l with
  | nil => simp [setKey, lookupKey, if_neg h]
  | cons hd tl ih =>
      obtain ⟨k0, v0⟩ := hd
      by_cases hk : k0 = k
      · subst hk
        simp only [setKey, if_pos rfl, lookupKey, if_neg h]
      · simp only [setKey, if_neg hk, lookupKey]
        by_cases h2 : k2 = k0
        · simp [if_pos h2]
        · rw [if_neg h2, if_neg h2]; exact ih

/-! ## Servo registry (`backend/servo_registry.py`) -/

/-- Mechanical mounting orientation of a servo (`ServoOrientation`). -/
inductive ServoOrientation
  | normal
  | inverted
  | mirrored
deriving DecidableEq, Repr

/-- Servo configuration record (`ServoMetadata` dataclass).  Angles and
pulse widths are Python floats / ints, embedded as real numbers. -/
structure ServoMetadata where
  id : String
  channel : Int
  pin : Option Int := none
  orientation : ServoOrientation := .normal
  gear : ℝ := 1
  notes : String := ""
  min_pulse_us : ℝ := 750
  max_pulse_us : ℝ := 2250
  center_deg : ℝ := 90
  min_deg : ℝ := 0
  max_deg : ℝ := 180
  current_angle : ℝ := 90
  target_angle : ℝ := 90
  enabled : Bool := false
  aliases : List String := []

/-- Registry state (`ServoRegistry`): the servo table, the
channel-to-id map and the alias-to-id map, each a Python dict. -/
structure Registry where
  servos : List (String × ServoMetadata) := []
  channel_map : List (Int × String) := []
  alias_map : List (String × String) := []

/-- Digit-string to number conversion used by `parsePyInt`. -/
def parseNatDigits (l : List Char) : Option Nat :=
  if l ≠ [] ∧ l.all Char.isDigit then
    some (l.foldl (fun a c => a * 10 + (c.toNat - 48)) 0)
  else none

/-- Whitespace stripping on a character list (Python `int()` ignores
surrounding whitespace). -/
def stripWs (l : List Char) : List Char :=
  ((l.dropWhile Char.isWhitespace).reverse.dropWhile Char.isWhitespace).reverse

/-- Python `int(s)` on a string: optional surrounding whitespace, an
optional sign, then decimal digits; anything else raises `ValueError`
(embedded as `none`). -/
def parsePyInt (s : String) : Option Int :=
  match stripWs s.toList with
  | [] => none
  | c :: rest =>
      if c = '-' then (parseNatDigits rest).map (fun n => -(n : Int))
      else if c = '+' then (parseNatDigits rest).map (fun n => (n : Int))
      else (parseNatDigits (c :: rest)).map (fun n => (n : Int))

/-- `ServoRegistry.resolve_servo`: direct ID lookup, then alias lookup,
then channel lookup when the identifier parses as an integer; a miss is
the non-fatal value `none`.  (On an alias hit the source indexes
`self.servos[self.alias_map[identifier]]` directly; the registry
invariant keeps that key present, so the embedded `lookupKey` agrees.) -/
def resolve_servo (r : Registry) (identifier : String) : Option ServoMetadata :=
  match lookupKey r.servos identifier with
  | some s => some s
  | none =>
      match lookupKey r.alias_map identifier with
      | some sid => lookupKey r.servos sid
      | none =>
          match parsePyInt identifier with
          | some ch =>
              match lookupKey r.channel_map ch with
              | some sid => lookupKey r.servos sid
              | none => none
          | none => none

/-- `ServoRegistry.clamp_angle`: clamp to the servo's soft limits; an
unresolved identifier passes the angle through unchanged. -/
def clamp_angle (r : Registry) (id : String) (angle : ℝ) : ℝ :=
  match resolve_servo r id with
  | none => angle
  | some s => max s.min_deg (min s.max_deg angle)

/-- `ServoRegistry.apply_orientation`: identity for NORMAL, `180 − angle`
for INVERTED and MIRRORED; an unresolved identifier passes the angle
through unchanged. -/
def apply_orientation (r : Registry) (id : String) (angle : ℝ) : ℝ :=
  match resolve_servo r id with
  | none => angle
  | some s =>
      match s.orientation with
      | .inverted => 180 - angle
      | .mirrored => 180 - angle
      | .normal => angle

/-- The fresh metadata record built inside `register_servo`. -/
def mkServoMeta (id : String) (channel : Int) (pin : Option Int)
    (orientation : ServoOrientation) (gear : ℝ) (notes : String) : ServoMetadata :=
  { id := id, channel := channel, pin := pin, orientation := orientation,
    gear := gear, notes := notes }

/-- `ServoRegistry.register_servo`: reject a duplicate id, a duplicate
channel, or a channel outside `[0, 15]`, leaving the registry untouched;
otherwise insert the servo into both tables.  Returns the updated
registry and the boolean result. -/
def register_servo (r : Registry) (id : String) (channel : Int) (pin : Option Int)
    (orientation : ServoOrientation) (gear : ℝ) (notes : String) :
    Registry × Bool :=
  if (lookupKey r.servos id).isSome then (r, false)
  else if (lookupKey r.channel_map channel).isSome then (r, false)
  else if ¬(0 ≤ channel ∧ channel ≤ 15) then (r, false)
  else
    ({ r with
        servos := setKey r.servos id (mkServoMeta id channel pin orientation gear notes),
        channel_map := setKey r.channel_map channel id }, true)

/-! ## Hardware controller (`backend/servo_controller.py`) -/

/-- Per-channel configuration (`ServoConfig` dataclass). -/
structure ServoConfig where
  channel : Int
  min_pulse : ℝ := 750
  max_pulse : ℝ := 2250
  current_angle : ℝ := 90
  active : Bool := true
  name : String := ""

/-- Modelled from the spec: the PCA9685 / `adafruit_motor.servo` driver
object is a third-party black box that is not part of this repository.
Per spec section 4.1 its angle-to-pulse mapping is linear between the
pulse bounds supplied at construction:
`pulse = min_pulse + angle/180 * (max_pulse - min_pulse)`.
`last_pulse` records the pulse width most recently written to the
hardware channel. -/
structure DriverServo where
  min_pulse : ℝ
  max_pulse : ℝ
  last_pulse : Option ℝ := none

/-- Modelled from the spec: linear angle-to-pulse map of the black-box
driver (spec section 4.1). -/
def driverPulse (minP maxP angle : ℝ) : ℝ :=
  minP + angle / 180 * (maxP - minP)

/-- `ServoController` state: constructed driver objects per channel and
the 16-entry configuration table. -/
structure ControllerState where
  servos : List (Int × DriverServo) := []
  configs : List (Int × ServoConfig) := []

/-- `ServoController.initialize_servo`: for an in-range channel, build a
driver object with the given pulse bounds and record them in the
channel's configuration; out-of-range channels (or a missing
configuration entry) change nothing and report failure. -/
def initServo (st : ControllerState) (channel : Int) (minP maxP : ℝ) :
    ControllerState × Bool :=
  if 0 ≤ channel ∧ channel ≤ 15 then
    match lookupKey st.configs channel with
    | some cfg =>
        ({ servos := setKey st.servos channel { min_pulse := minP, max_pulse := maxP },
           configs := setKey st.configs channel
             { cfg with min_pulse := minP, max_pulse := maxP, active := true } }, true)
    | none => (st, false)
  else (st, false)

/-- Body of `ServoController.set_servo_angle` after the auto-initialize
step: when the channel is present and active, clamp the angle to
`[0, 180]` and write the mapped pulse to the driver object, recording
the new current angle. -/
def setServoAngleCore (st1 : ControllerState) (channel : Int) (angle : ℝ) :
    ControllerState × Bool :=
  match lookupKey st1.servos channel, lookupKey st1.configs channel with
  | some drv, some cfg =>
      if cfg.active then
        let a2 := max 0 (min 180 angle)
        ({ servos := setKey st1.servos channel
             { drv with last_pulse := some (driverPulse drv.min_pulse drv.max_pulse a2) },
           configs := setKey st1.configs channel { cfg with current_angle := a2 } }, true)
      else (st1, false)
  | _, _ => (st1, false)

/-- `ServoController.set_servo_angle`: auto-initialize an unseen channel
with the default 750-2250 us pulse bounds, then run the write path. -/
def set_servo_angle (st : ControllerState) (channel : Int) (angle : ℝ) :
    ControllerState × Bool :=
  setServoAngleCore
    (if (lookupKey st.servos channel).isNone
     then (initServo st channel 750 2250).1 else st) channel angle

/-- Registry-side bookkeeping done by the angle handler on success:
`servo_meta.current_angle = safe_angle; servo_meta.target_angle = safe_angle`. -/
def setServoAngles (r : Registry) (sid : String) (a : ℝ) : Registry :=
  { r with servos := r.servos.map (fun p =>
      if p.1 = sid then (p.1, { p.2 with current_angle := a, target_angle := a }) else p) }

/-- The `set_servo_angle` socket handler (`backend/stable_app.py` /
`backend/app.py`, `handle_servo_angle`): resolve the identifier, clamp
to soft limits, apply orientation, and forward to the controller;
on success the registry's current/target angles are updated to the
clamped (pre-orientation) angle. -/
def handle_set_servo_angle (r : Registry) (c : ControllerState)
    (identifier : String) (angle : ℝ) : Registry × ControllerState × Bool :=
  match resolve_servo r identifier with
  | none => (r, c, false)
  | some meta =>
      let safe := clamp_angle r meta.id angle
      let oriented := apply_orientation r meta.id safe
      let res := set_servo_angle c meta.channel oriented
      if res.2 then (setServoAngles r meta.id safe, res.1, true)
      else (r, res.1, false)

/-! ## Claim C3: identifier resolution precedence -/

/-- Claim C3: `resolve_servo` tries the ID table first, then the alias
table, then interpretation of the identifier as a decimal channel
number, returning the first hit; when the identifier is both an ID and
an alias the ID wins, when a numeric string is an alias the alias wins
over the channel lookup, and when nothing applies the result is the
non-fatal miss `none`. -/
theorem resolve_precedence (r : Registry) (x : String) :
    (∀ m, lookupKey r.servos x = some m → resolve_servo r x = some m) ∧
    (lookupKey r.servos x = none → ∀ sid, lookupKey r.alias_map x = some sid →
      resolve_servo r x = lookupKey r.servos sid) ∧
    (lookupKey r.servos x = none → lookupKey r.alias_map x = none →
      ∀ ch, parsePyInt x = some ch →
        resolve_servo r x = (lookupKey r.channel_map ch).bind (lookupKey r.servos)) ∧
    (lookupKey r.servos x = none → lookupKey r.alias_map x = none →
      parsePyInt x = none → resolve_servo r x = none) := by
  refine ⟨?_, ?_, ?_, ?_⟩
  · intro m hm; simp [resolve_servo, hm]
  · intro h1 sid h2; simp [resolve_servo, h1, h2]
  · intro h1 h2 ch h3
    cases hc : lookupKey r.channel_map ch <;>
      simp [resolve_servo, h1, h2, h3, hc]
  · intro h1 h2 h3; simp [resolve_servo, h1, h2, h3]

/-- Servo metadata used in the C3 collision witness. -/
def metaColA : ServoMetadata := { id := "7", channel := 0 }

/-- Second servo metadata used in the C3 collision witness. -/
def metaColB : ServoMetadata := { id := "b", channel := 7 }

/-- Third servo metadata used in the C3 collision witness. -/
def metaColC : ServoMetadata := { id := "c", channel := 3 }

/-- Registry in which the string "7" is simultaneously a servo ID, an
alias would not apply, and channel 7 exists; and the string "3" is an
alias for servo "b" while channel 3 belongs to servo "c". -/
def registryCol : Registry :=
  { servos := [("7", metaColA), ("b", metaColB), ("c", metaColC)],
    channel_map := [(0, "7"), (7, "b"), (3, "c")],
    alias_map := [("3", "b")] }

/-- Witness for C3: in `registryCol`, the identifier "7" is both a
servo ID and the decimal form of servo "b"'s channel, and the ID wins;
the identifier "3" is both an alias of "b" and the decimal form of
servo "c"'s channel, and the alias wins; an unknown identifier misses
with `none`. -/
theorem resolve_precedence_witness :
    resolve_servo registryCol "7" = some metaColA ∧
    resolve_servo registryCol "3" = some metaColB ∧
    resolve_servo registryCol "ghost" = none := by
  refine ⟨?_, ?_, ?_⟩
  · exact (resolve_precedence registryCol "7").1 metaColA rfl
  · have h := (resolve_precedence registryCol "3").2.1 rfl "b" rfl
    rw [h]; rfl
  · exact (resolve_precedence registryCol "ghost").2.2.2 rfl rfl rfl

/-! ## Claim C8: registration failure taxonomy and atomicity -/

/-- Claim C8: `register_servo` fails exactly when the id is already
registered, the channel is already assigned, or the channel is outside
`[0, 15]`; on any failure the servo table and channel map are left
unchanged, and on success the new servo is present under the given id
with the given channel. -/
theorem register_servo_spec (r : Registry) (id : String) (channel : Int)
    (pin : Option Int) (orientation : ServoOrientation) (gear : ℝ) (notes : String) :
    ((register_servo r id channel pin orientation gear notes).2 = false ↔
      ((lookupKey r.servos id).isSome = true ∨
       (lookupKey r.channel_map channel).isSome = true ∨
       ¬(0 ≤ channel ∧ channel ≤ 15))) ∧
    ((register_servo r id channel pin orientation gear notes).2 = false →
      (register_servo r id channel pin orientation gear notes).1 = r) ∧
    ((register_servo r id channel pin orientation gear notes).2 = true →
      lookupKey (register_servo r id channel pin orientation gear notes).1.servos id =
        some (mkServoMeta id channel pin orientation gear notes) ∧
      lookupKey (register_servo r id channel pin orientation gear notes).1.channel_map channel =
        some id) := by
  by_cases h1 : (lookupKey r.servos id).isSome = true
  · refine ⟨by simp [register_servo, h1], by simp [register_servo, h1], ?_⟩
    intro h; simp [register_servo, h1] at h
  · by_cases h2 : (lookupKey r.channel_map channel).isSome = true
    · refine ⟨by simp [register_servo, h1, h2], by simp [register_servo, h1, h2], ?_⟩
      intro h; simp [register_servo, h1, h2] at h
    · by_cases h3 : 0 ≤ channel ∧ channel ≤ 15
      · refine ⟨by simp [register_servo, h1, h2, h3], ?_, ?_⟩
        · intro h; simp [register_servo, h1, h2, h3] at h
        · intro _
          constructor
          · simp only [register_servo, h1, h2, h3, Bool.false_eq_true, if_false,
              not_true_eq_false]
            exact lookupKey_setKey_self r.servos id _
          · simp only [register_servo, h1, h2, h3, Bool.false_eq_true, if_false,
              not_true_eq_false]
            exact lookupKey_setKey_self r.channel_map channel id
      · refine ⟨by simp [register_servo, h1, h2, h3], by simp [register_servo, h1, h2, h3], ?_⟩
        intro h; simp [register_servo, h1, h2, h3] at h

/-- Witness for C8: on an empty registry, registering servo "a" on
channel 3 succeeds and the servo is present under id "a" with
channel 3; registering "a" again on a fresh channel fails and leaves
the one-servo registry unchanged. -/
theorem register_servo_spec_witness :
    (register_servo { } "a" 3 none .normal 1 "").2 = true ∧
    lookupKey (register_servo { } "a" 3 none .normal 1 "").1.servos "a" =
      some (mkServoMeta "a" 3 none .normal 1 "") ∧
    (register_servo (register_servo { } "a" 3 none .normal 1 "").1 "a" 5 none .normal 1 "").2
      = false ∧
    (register_servo (register_servo { } "a" 3 none .normal 1 "").1 "a" 5 none .normal 1 "").1
      = (register_servo { } "a" 3 none .normal 1 "").1 := by
  have hfirst : (register_servo { } "a" 3 none .normal 1 "").2 = true := by
    simp [register_servo, lookupKey]
  have hpresent := ((register_servo_spec { } "a" 3 none .normal 1 "").2.2 hfirst).1
  have hdupfail : (register_servo (register_servo { } "a" 3 none .normal 1 "").1
      "a" 5 none .normal 1 "").2 = false := by
    exact ((register_servo_spec (register_servo { } "a" 3 none .normal 1 "").1
      "a" 5 none .normal 1 "").1).mpr (Or.inl (by rw [hpresent]; rfl))
  refine ⟨hfirst, hpresent, hdupfail, ?_⟩
  exact (register_servo_spec (register_servo { } "a" 3 none .normal 1 "").1
    "a" 5 none .normal 1 "").2.1 hdupfail

/-! ## Claim C10: unknown identifiers pass angles through unchanged -/

/-- Claim C10: for every identifier that resolves to no servo and every
angle, `clamp_angle` and `apply_orientation` both return the angle
unchanged rather than signalling an error. -/
theorem unknown_servo_passthrough (r : Registry) (x : String) (a : ℝ)
    (h : resolve_servo r x = none) :
    clamp_angle r x a = a ∧ apply_orientation r x a = a := by
  constructor
  · simp [clamp_angle, h]
  · simp [apply_orientation, h]

/-- Witness for C10: in the collision registry, the identifier "ghost"
resolves to no servo and an angle of 77 degrees passes through both
stages unchanged. -/
theorem unknown_servo_passthrough_witness :
    resolve_servo registryCol "ghost" = none ∧
    clamp_angle registryCol "ghost" 77 = 77 ∧
    apply_orientation registryCol "ghost" 77 = 77 := by
  have h : resolve_servo registryCol "ghost" = none := rfl
  exact ⟨h, (unknown_servo_passthrough registryCol "ghost" 77 h).1,
    (unknown_servo_passthrough registryCol "ghost" 77 h).2⟩

/-! ## Claim C1: pulse written on a successful set-angle -/

theorem setServoAngleCore_success (st1 : ControllerState) (ch : Int) (ang : ℝ)
    (h0 : 0 ≤ ang) (h180 : ang ≤ 180)
    (hok : (setServoAngleCore st1 ch ang).2 = true) :
    ∃ drv0 : DriverServo, lookupKey st1.servos ch = some drv0 ∧
      lookupKey (setServoAngleCore st1 ch ang).1.servos ch =
        some { drv0 with
          last_pulse := some (driverPulse drv0.min_pulse drv0.max_pulse ang) } := by
  cases hs : lookupKey st1.servos ch with
  | none => simp [setServoAngleCore, hs] at hok
  | some drv0 =>
      cases hc : lookupKey st1.configs ch with
      | none => simp [setServoAngleCore, hs, hc] at hok
      | some cfg =>
          cases ha : cfg.active with
          | false => simp [setServoAngleCore, hs, hc, ha] at hok
          | true =>
              refine ⟨drv0, rfl, ?_⟩
              have hclamp : max 0 (min 180 ang) = ang := by
                rw [min_eq_right h180, max_eq_right h0]
              simp only [setServoAngleCore, hs, hc, ha, if_true, hclamp]
              exact lookupKey_setKey_self st1.servos ch _

theorem set_servo_angle_success (c : ControllerState) (ch : Int) (ang : ℝ)
    (h0 : 0 ≤ ang) (h180 : ang ≤ 180)
    (hok : (set_servo_angle c ch ang).2 = true) :
    ∃ drv : DriverServo,
      lookupKey (set_servo_angle c ch ang).1.servos ch = some drv ∧
      (lookupKey c.servos ch = none → drv.min_pulse = 750 ∧ drv.max_pulse = 2250) ∧
      drv.last_pulse = some (driverPulse drv.min_pulse drv.max_pulse ang) := by
  cases hs : lookupKey c.servos ch with
  | some drv0 =>
      have hst : (set_servo_angle c ch ang) = setServoAngleCore c ch ang := by
        simp [set_servo_angle, hs]
      rw [hst] at hok ⊢
      obtain ⟨d0, _, hres⟩ := setServoAngleCore_success c ch ang h0 h180 hok
      refine ⟨_, hres, ?_, rfl⟩
      intro h
      exact Option.noConfusion h
  | none =>
      by_cases hr : 0 ≤ ch ∧ ch ≤ 15
      · cases hcfg : lookupKey c.configs ch with
        | none =>
            have hinit : (initServo c ch 750 2250).1 = c := by
              simp [initServo, hr, hcfg]
            have hst : (set_servo_angle c ch ang) = setServoAngleCore c ch ang := by
              simp [set_servo_angle, hs, hinit]
            rw [hst] at hok
            obtain ⟨d0, hd0, _⟩ := setServoAngleCore_success c ch ang h0 h180 hok
            rw [hs] at hd0; cases hd0
        | some cfg =>
            have hinit : (initServo c ch 750 2250).1 =
                { servos := setKey c.servos ch { min_pulse := 750, max_pulse := 2250 },
                  configs := setKey c.configs ch
                    { cfg with min_pulse := 750, max_pulse := 2250, active := true } } := by
              simp [initServo, hr, hcfg]
            have hst : (set_servo_angle c ch ang) =
                setServoAngleCore (initServo c ch 750 2250).1 ch ang := by
              simp [set_servo_angle, hs]
            rw [hst] at hok ⊢
            obtain ⟨d0, hd0, hres⟩ :=
              setServoAngleCore_success (initServo c ch 750 2250).1 ch ang h0 h180 hok
            have hlook : lookupKey (initServo c ch 750 2250).1.servos ch =
                some { min_pulse := 750, max_pulse := 2250 } := by
              rw [hinit]; exact lookupKey_setKey_self c.servos ch _
            rw [hd0] at hlook
            cases hlook
            exact ⟨_, hres, fun _ => ⟨rfl, rfl⟩, rfl⟩
      · have hinit : (initServo c ch 750 2250).1 = c := by
          simp [initServo, hr]
        have hst : (set_servo_angle c ch ang) = setServoAngleCore c ch ang := by
          simp [set_servo_angle, hs, hinit]
        rw [hst] at hok
        obtain ⟨d0, hd0, _⟩ := setServoAngleCore_success c ch ang h0 h180 hok
        rw [hs] at hd0; cases hd0

/-- The clamp-then-orient stage stays within `[0, 180]` whenever the
servo's soft limits do. -/
theorem oriented_angle_bounds (r : Registry) (meta : ServoMetadata) (a : ℝ)
    (hid : lookupKey r.servos meta.id = some meta)
    (hmin : 0 ≤ meta.min_deg) (hle : meta.min_deg ≤ meta.max_deg)
    (hmax : meta.max_deg ≤ 180) :
    0 ≤ apply_orientation r meta.id (clamp_angle r meta.id a) ∧
    apply_orientation r meta.id (clamp_angle r meta.id a) ≤ 180 := by
  have hres : resolve_servo r meta.id = some meta := by
    simp [resolve_servo, hid]
  have hcl : clamp_angle r meta.id a = max meta.min_deg (min meta.max_deg a) := by
    simp [clamp_angle, hres]
  have hlo : 0 ≤ max meta.min_deg (min meta.max_deg a) :=
    le_trans hmin (le_max_left _ _)
  have hhi : max meta.min_deg (min meta.max_deg a) ≤ 180 :=
    max_le (le_trans hle hmax) (le_trans (min_le_left _ _) hmax)
  rw [hcl]
  simp only [apply_orientation, hres]
  cases meta.orientation <;> dsimp only <;> constructor <;> linarith

/-- Amended claim C1: for a registered servo whose soft limits lie
within `[0, 180]`, a successful `set_servo_angle` handler call writes to
the driver exactly the pulse obtained by mapping
`apply_orientation(clamp(a, min_deg, max_deg))` linearly through the
CONTROLLER's per-channel pulse bounds, which are the 750-2250 us
defaults whenever the channel was auto-initialized.  (The original
claim used the registry calibration `(s.min_pulse_us, s.max_pulse_us)`;
the controller never reads those fields, so the two agree only when the
registry calibration still equals the controller defaults.) -/
theorem set_angle_pulse_amended (r : Registry) (c : ControllerState)
    (x : String) (a : ℝ) (meta : ServoMetadata)
    (hres : resolve_servo r x = some meta)
    (hid : lookupKey r.servos meta.id = some meta)
    (hmin : 0 ≤ meta.min_deg) (hle : meta.min_deg ≤ meta.max_deg)
    (hmax : meta.max_deg ≤ 180)
    (hok : (handle_set_servo_angle r c x a).2.2 = true) :
    ∃ drv : DriverServo,
      lookupKey (handle_set_servo_angle r c x a).2.1.servos meta.channel = some drv ∧
      (lookupKey c.servos meta.channel = none →
        drv.min_pulse = 750 ∧ drv.max_pulse = 2250) ∧
      drv.last_pulse = some (driverPulse drv.min_pulse drv.max_pulse
        (apply_orientation r meta.id (clamp_angle r meta.id a))) := by
  obtain ⟨h0, h180⟩ := oriented_angle_bounds r meta a hid hmin hle hmax
  cases hsa : (set_servo_angle c meta.channel
      (apply_orientation r meta.id (clamp_angle r meta.id a))).2 with
  | false =>
      have : (handle_set_servo_angle r c x a).2.2 = false := by
        simp [handle_set_servo_angle, hres, hsa]
      rw [this] at hok; cases hok
  | true =>
      have hctrl : (handle_set_servo_angle r c x a).2.1 =
          (set_servo_angle c meta.channel
            (apply_orientation r meta.id (clamp_angle r meta.id a))).1 := by
        simp [handle_set_servo_angle, hres, hsa]
      rw [hctrl]
      exact set_servo_angle_success c meta.channel _ h0 h180 hsa

/-- Registry servo used by the C1 counterexample: calibrated to
1000-2000 us, which the controller never learns about. -/
def metaCalib : ServoMetadata :=
  { id := "s", channel := 0, min_pulse_us := 1000, max_pulse_us := 2000 }

/-- Registry for the C1 counterexample. -/
def registryCalib : Registry :=
  { servos := [("s", metaCalib)], channel_map := [(0, "s")] }

/-- Fresh controller for the C1 counterexample: channel 0 configured at
its defaults, no driver object constructed yet. -/
def controllerFresh : ControllerState :=
  { servos := [], configs := [(0, { channel := 0 })] }

/-- Driver object present on channel 0 after the C1 counterexample
write. -/
def drvAfterZero : DriverServo :=
  { min_pulse := 750, max_pulse := 2250,
    last_pulse := some (driverPulse 750 2250 (max 0 (min 180 0))) }

/-- Channel-0 configuration after the C1 counterexample write. -/
def cfgAfterZero : ServoConfig :=
  { channel := 0, min_pulse := 750, max_pulse := 2250,
    current_angle := max 0 (min 180 0), active := true }

/-- Evaluation helper: a fresh controller auto-initializes channel 0 at
the 750-2250 us defaults and a write of 0 degrees lands at 750 us. -/
theorem set_servo_angle_fresh_eval :
    set_servo_angle controllerFresh 0 0 =
      ({ servos := [(0, drvAfterZero)], configs := [(0, cfgAfterZero)] }, true) := by
  simp [set_servo_angle, controllerFresh, lookupKey, initServo, setServoAngleCore, setKey,
    drvAfterZero, cfgAfterZero]

/-- Counterexample to C1 as stated: servo "s" is registered with soft
limits `[0, 180]` and calibration 1000-2000 us; `set_angle("s", 0)`
succeeds, yet the pulse written to the driver is 750 us (the
controller's auto-initialized default), which differs from the
claim's `min_pulse_us + 0/180 * (max_pulse_us - min_pulse_us)
= 1000` us by far more than 1 us. -/
theorem set_angle_pulse_counterexample :
    (handle_set_servo_angle registryCalib controllerFresh "s" 0).2.2 = true ∧
    ∃ drv : DriverServo,
      lookupKey (handle_set_servo_angle registryCalib controllerFresh "s" 0).2.1.servos 0 =
        some drv ∧
      drv.last_pulse = some 750 ∧
      ¬(|750 - driverPulse metaCalib.min_pulse_us metaCalib.max_pulse_us
          (apply_orientation registryCalib "s"
            (clamp_angle registryCalib "s" 0))| ≤ 1) := by
  have hres : resolve_servo registryCalib "s" = some metaCalib := rfl
  have hclamp : clamp_angle registryCalib "s" 0 = 0 := by
    simp [clamp_angle, hres, metaCalib]
  have horient : apply_orientation registryCalib "s" 0 = 0 := by
    simp [apply_orientation, hres, metaCalib]
  have hcore : handle_set_servo_angle registryCalib controllerFresh "s" 0 =
      (setServoAngles registryCalib "s" 0,
        (set_servo_angle controllerFresh 0 0).1,
        (set_servo_angle controllerFresh 0 0).2) := by
    simp only [handle_set_servo_angle, hres,
      show metaCalib.id = "s" from rfl, show metaCalib.channel = 0 from rfl,
      hclamp, horient, set_servo_angle_fresh_eval, if_true]
  rw [hcore, set_servo_angle_fresh_eval]
  refine ⟨rfl, _, rfl, ?_, ?_⟩
  · show some (driverPulse 750 2250 (max 0 (min 180 0))) = some 750
    norm_num [driverPulse, min_def, max_def]
  · rw [hclamp, horient]
    show ¬(|750 - driverPulse metaCalib.min_pulse_us metaCalib.max_pulse_us 0| ≤ 1)
    norm_num [driverPulse, metaCalib]

/-- Servo and registry used by the amended C1 witness: default
calibration. -/
def metaDflt : ServoMetadata := { id := "d", channel := 0 }

/-- Registry used by the amended C1 witness. -/
def registryDflt : Registry :=
  { servos := [("d", metaDflt)], channel_map := [(0, "d")] }

/-- Witness for the amended C1: a servo registered with the default
calibration on a fresh controller; a successful `set_angle("d", 30)`
writes the pulse `driverPulse 750 2250 30 = 1000` us, the linear map of
the oriented clamped angle through the controller's pulse bounds. -/
theorem set_angle_pulse_amended_witness :
    ∃ drv : DriverServo,
      lookupKey (handle_set_servo_angle registryDflt controllerFresh "d" 30).2.1.servos 0 =
        some drv ∧
      drv.min_pulse = 750 ∧ drv.max_pulse = 2250 ∧
      drv.last_pulse = some (driverPulse 750 2250 30) ∧
      driverPulse 750 2250 30 = 1000 := by
  have hres : resolve_servo registryDflt "d" = some metaDflt := rfl
  have hclamp : clamp_angle registryDflt "d" 30 = 30 := by
    simp only [clamp_angle, hres, metaDflt]
    norm_num
  have horient : apply_orientation registryDflt "d" 30 = 30 := by
    simp [apply_orientation, hres, metaDflt]
  have hsa2 : (set_servo_angle controllerFresh 0 30).2 = true := by
    simp [set_servo_angle, controllerFresh, lookupKey, initServo, setServoAngleCore, setKey]
  have hok : (handle_set_servo_angle registryDflt controllerFresh "d" 30).2.2 = true := by
    simp only [handle_set_servo_angle, hres,
      show metaDflt.id = "d" from rfl, show metaDflt.channel = 0 from rfl,
      hclamp, horient, hsa2, if_true]
  obtain ⟨drv, hdrv, hdef, hpulse⟩ := set_angle_pulse_amended registryDflt
    controllerFresh "d" 30 metaDflt hres rfl
    (by norm_num [metaDflt]) (by norm_num [metaDflt]) (by norm_num [metaDflt]) hok
  obtain ⟨hmin, hmax⟩ := hdef rfl
  refine ⟨drv, ?_, hmin, hmax, ?_, by norm_num [driverPulse]⟩
  · rw [show metaDflt.channel = 0 from rfl] at hdrv
    exact hdrv
  · rw [hpulse, hmin, hmax, show metaDflt.id = "d" from rfl, hclamp, horient]

/-! ## Preset engine (`backend/preset_engine.py`) -/

/-- Motion preset kinds (`PresetType` enum). -/
inductive PresetType
  | sine
  | pingpong
  | bounce
  | random_walk
  | bezier_path
  | step
  | ripple
  | swarm
  | breath
  | twitch
  | glitch
deriving DecidableEq, Repr

/-- Parameters for motion presets (`PresetParams` dataclass), with the
dataclass default values. -/
structure PresetParams where
  rate : ℝ := 1
  depth : ℝ := 45
  center : ℝ := 90
  loop : Bool := true
  frequency : ℝ := 0.5
  phase : ℝ := 0
  min_angle : ℝ := 45
  max_angle : ℝ := 135
  step_size : ℝ := 5
  coherence : ℝ := 0.8
  seed : Option Int := none
  control_points : List ℝ := [0, 0.3, 0.7, 1]
  seqAngles : List ℝ := [45, 90, 135, 90]
  hold_time : ℝ := 1
  wave_speed : ℝ := 1
  decay : ℝ := 0.1
  inhale_time : ℝ := 2
  exhale_time : ℝ := 3
  hold_time_breath : ℝ := 0.5
  intensity : ℝ := 0.3
  interval_min : ℝ := 0.5
  interval_max : ℝ := 3

/-- Python float modulo with a positive divisor: `x % y = x - y*floor(x/y)`. -/
def fMod (x y : ℝ) : ℝ := x - y * (⌊x / y⌋ : ℤ)

/-- `PresetInstance._sine_wave`:
`center + sin(elapsed*frequency*rate + (phase + per_target_offset)) * depth`. -/
def sineWave (p : PresetParams) (phase_off : ℝ) (elapsed : ℝ) : ℝ :=
  p.center + Real.sin (elapsed * p.frequency * p.rate + (p.phase + phase_off)) * p.depth

/-- `PresetInstance._pingpong`: triangle wave of period `2/rate` between
`min_angle` and `max_angle`. -/
def pingpongWave (p : PresetParams) (elapsed : ℝ) : ℝ :=
  let cycle := 2 / p.rate
  let t := fMod elapsed cycle / cycle
  let progress := if t < 0.5 then t * 2 else (1 - t) * 2
  p.min_angle + progress * (p.max_angle - p.min_angle)

/-- `PresetInstance._bounce`: two-segment quadratic easing over period
`2/rate` between `min_angle` and `max_angle`. -/
def bounceWave (p : PresetParams) (elapsed : ℝ) : ℝ :=
  let cycle := 2 / p.rate
  let t := fMod elapsed cycle / cycle
  let progress := if t < 0.5 then 2 * t * t else 1 - 2 * (1 - t) * (1 - t)
  p.min_angle + progress * (p.max_angle - p.min_angle)

/-- `PresetInstance._bezier_path`: cubic Bezier over the four control
points mapped into `[min_angle, max_angle]`, period `4/rate`, looping or
one-shot according to `loop`. -/
def bezierPathWave (p : PresetParams) (elapsed : ℝ) : ℝ :=
  let cycle := 4 / p.rate
  let t := if p.loop then fMod elapsed cycle / cycle else min 1 (elapsed / cycle)
  let cp := p.control_points
  if 4 ≤ cp.length then
    let p0 := p.min_angle + cp.getD 0 0 * (p.max_angle - p.min_angle)
    let p1 := p.min_angle + cp.getD 1 0 * (p.max_angle - p.min_angle)
    let p2 := p.min_angle + cp.getD 2 0 * (p.max_angle - p.min_angle)
    let p3 := p.min_angle + cp.getD 3 0 * (p.max_angle - p.min_angle)
    (1 - t) ^ 3 * p0 + 3 * (1 - t) ^ 2 * t * p1 + 3 * (1 - t) * t ^ 2 * p2 + t ^ 3 * p3
  else p.center

/-- `PresetInstance._ripple`: phase-delayed sine with exponential decay
per target. -/
def rippleWave (p : PresetParams) (phase_off : ℝ) (elapsed : ℝ) : ℝ :=
  let wave_phase := elapsed * p.wave_speed * p.rate - phase_off
  let distance_decay := Real.exp (-phase_off * p.decay)
  p.center + Real.sin (wave_phase * 2 * Real.pi) * distance_decay * p.depth

/-- `PresetInstance._swarm`: two summed sines with per-target frequency
jitter, amplitude scaled by 0.7. -/
def swarmWave (p : PresetParams) (phase_off : ℝ) (elapsed : ℝ) : ℝ :=
  let freq_variation := 1 + phase_off / (2 * Real.pi) * 0.3
  let primary := Real.sin (elapsed * p.frequency * freq_variation * p.rate)
  let secondary :=
    0.3 * Real.sin (elapsed * p.frequency * freq_variation * 3 * p.rate + phase_off)
  p.center + (primary + secondary) * p.depth * 0.7

/-- `PresetInstance._breath`: four-phase inhale/hold/exhale/hold cycle
scaled by `1/rate`, amplitude `±depth` around `center`. -/
def breathWave (p : PresetParams) (elapsed : ℝ) : ℝ :=
  let cycle := (p.inhale_time + p.exhale_time + 2 * p.hold_time_breath) / p.rate
  let t := fMod elapsed cycle * p.rate
  let progress :=
    if t < p.inhale_time then (t / p.inhale_time) * (t / p.inhale_time)
    else if t < p.inhale_time + p.hold_time_breath then 1
    else if t < p.inhale_time + p.hold_time_breath + p.exhale_time then
      let prog := 1 - (t - (p.inhale_time + p.hold_time_breath)) / p.exhale_time
      1 - (1 - prog) * (1 - prog)
    else 0
  p.center + (progress - 0.5) * p.depth * 2

/-- Running instance of a motion preset (`PresetInstance`).  The
per-target dictionaries become association lists; only the state used by
the deterministic generators is embedded (the RNG-backed state of
random-walk/twitch/glitch and the wall-clock state of step are outside
the embedding). -/
structure PresetInstance where
  name : String
  targets : List String
  ptype : PresetType
  params : PresetParams
  start_time : ℝ
  is_running : Bool := false
  is_paused : Bool := false
  current_positions : List (String × ℝ) := []
  phase_offsets : List (String × ℝ) := []

/-- Per-target phase offsets assigned in `_initialize_target_states`:
ripple gets `0.5 * index`, everything else 0.  (Swarm actually draws
`U(0, 2*pi)`; that random draw is not embedded and no claim depends on
it.) -/
def mkPhaseOffsets (pt : PresetType) (targets : List String) : List (String × ℝ) :=
  targets.enum.map (fun q => (q.2, if pt = .ripple then (q.1 : ℝ) * 0.5 else 0))

/-- `PresetInstance.__init__`: targets copied, positions initialised to
`center`, phase offsets per `_initialize_target_states`. -/
def mkInstance (name : String) (targets : List String) (pt : PresetType)
    (params : PresetParams) (now : ℝ) : PresetInstance :=
  { name := name, targets := targets, ptype := pt, params := params,
    start_time := now,
    current_positions := targets.map (fun t => (t, params.center)),
    phase_offsets := mkPhaseOffsets pt targets }

/-- `PresetInstance._calculate_target_angle` restricted to the
deterministic generators; the four generators that consult the RNG or
the wall clock (random-walk, step, twitch, glitch) fall through to the
method's final `current_positions.get(target, center)` fallback here and
are not otherwise embedded (no claim concerns them). -/
def calcTargetAngle (inst : PresetInstance) (target : String) (elapsed : ℝ) : ℝ :=
  let offset := (lookupKey inst.phase_offsets target).getD 0
  match inst.ptype with
  | .sine => sineWave inst.params offset elapsed
  | .pingpong => pingpongWave inst.params elapsed
  | .bounce => bounceWave inst.params elapsed
  | .bezier_path => bezierPathWave inst.params elapsed
  | .ripple => rippleWave inst.params offset elapsed
  | .swarm => swarmWave inst.params offset elapsed
  | .breath => breathWave inst.params elapsed
  | _ => (lookupKey inst.current_positions target).getD inst.params.center

/-- `PresetInstance.update`: when the instance is not running or is
paused, the stored positions are returned unchanged; otherwise every
target's position is recomputed from the elapsed time. -/
def updateInstance (inst : PresetInstance) (now : ℝ) : PresetInstance :=
  if inst.is_running = false ∨ inst.is_paused = true then inst
  else
    { inst with current_positions :=
        inst.targets.map (fun t => (t, calcTargetAngle inst t (now - inst.start_time))) }

/-- Driver writes issued for one instance by one pass of
`PresetEngine._update_worker`: for every (target, angle) pair of the
instance's positions, if the target resolves to an enabled servo the
clamped and oriented angle is written to that servo's channel. -/
def instanceWrites (r : Registry) (inst : PresetInstance) : List (Int × ℝ) :=
  inst.current_positions.filterMap (fun q =>
    match resolve_servo r q.1 with
    | some m =>
        if m.enabled then
          some (m.channel, apply_orientation r q.1 (clamp_angle r q.1 q.2))
        else none
    | none => none)

/-- One `_update_worker` tick for a single instance: instances with
`is_running` are updated and their (possibly frozen) positions are
written out; others produce no writes. -/
def engineTickInstance (r : Registry) (inst : PresetInstance) (now : ℝ) :
    PresetInstance × List (Int × ℝ) :=
  if inst.is_running then
    (updateInstance inst now, instanceWrites r (updateInstance inst now))
  else (inst, [])

/-- Stored preset definition (`PresetEngine.preset_definitions` entry). -/
structure PresetDef where
  ptype : PresetType
  params : PresetParams
  default_targets : List String := []
  descr : String := ""

/-- Preset engine state: the definition table and the running-instance
table. -/
structure PresetEngineState where
  defs : List (String × PresetDef) := []
  running : List (String × PresetInstance) := []

/-- `PresetEngine.preset_stop`: drop the named running instance. -/
def preset_stop (st : PresetEngineState) (name : String) : PresetEngineState × Bool :=
  match lookupKey st.running name with
  | some _ => ({ st with running := eraseKey st.running name }, true)
  | none => (st, false)

/-- `PresetEngine.preset_play`: look up the definition, fall back to its
default targets, stop a prior instance of the same name, then MUTATE the
stored definition's shared params object (`params.rate = rate` when
`rate != 1.0`, `params.loop = loop` always) and start a new instance
carrying that same params object. -/
def preset_play (st : PresetEngineState) (name : String)
    (targets? : Option (List String)) (rate : ℝ) (loop : Bool) (now : ℝ) :
    PresetEngineState × Bool :=
  match lookupKey st.defs name with
  | none => (st, false)
  | some d =>
      let tgts := match targets? with
        | some t => t
        | none => d.default_targets
      if tgts.isEmpty then (st, false)
      else
        let st1 := if (lookupKey st.running name).isSome then (preset_stop st name).1 else st
        let p2 := { (if rate ≠ 1 then { d.params with rate := rate } else d.params) with
                    loop := loop }
        ({ defs := setKey st1.defs name { d with params := p2 },
           running := setKey st1.running name
             { mkInstance name tgts d.ptype p2 now with is_running := true } }, true)

theorem preset_stop_defs (st : PresetEngineState) (name : String) :
    (preset_stop st name).1.defs = st.defs := by
  cases h : lookupKey st.running name <;> simp [preset_stop, h]

theorem preset_play_eval (st : PresetEngineState) (name : String) (d : PresetDef)
    (tgts : List String) (rate : ℝ) (loop : Bool) (now : ℝ)
    (hdef : lookupKey st.defs name = some d) (hne : tgts.isEmpty = false) :
    (preset_play st name (some tgts) rate loop now).2 = true ∧
    lookupKey (preset_play st name (some tgts) rate loop now).1.defs name =
      some { d with params :=
        { (if rate ≠ 1 then { d.params with rate := rate } else d.params) with
          loop := loop } } ∧
    lookupKey (preset_play st name (some tgts) rate loop now).1.running name =
      some { mkInstance name tgts d.ptype
        { (if rate ≠ 1 then { d.params with rate := rate } else d.params) with
          loop := loop } now with is_running := true } := by
  simp only [preset_play, hdef, hne, Bool.false_eq_true, if_false]
  exact ⟨by trivial, lookupKey_setKey_self _ _ _, lookupKey_setKey_self _ _ _⟩

/-! ## Claim C2: paused instances and driver writes -/

/-- Enabled servo for the C2 concrete instance. -/
def metaEnabled : ServoMetadata := { id := "a", channel := 0, enabled := true }

/-- Registry for the C2 concrete instance. -/
def registryEnabled : Registry :=
  { servos := [("a", metaEnabled)], channel_map := [(0, "a")] }

/-- A running but paused sine instance targeting servo "a". -/
def instPaused : PresetInstance :=
  { name := "quiver", targets := ["a"], ptype := .sine, params := { },
    start_time := 0, is_running := true, is_paused := true,
    current_positions := [("a", 90)], phase_offsets := [("a", 0)] }

/-- Counterexample to C2 as stated: on an engine tick, the paused (but
still running) instance `instPaused` causes a `set_servo_angle` write of
90 degrees to channel 0 — the driver does receive a write attributable
to the paused instance. -/
theorem preset_paused_counterexample :
    (engineTickInstance registryEnabled instPaused 5).2 = [(0, 90)] ∧
    (engineTickInstance registryEnabled instPaused 5).2 ≠ [] := by
  have hres : resolve_servo registryEnabled "a" = some metaEnabled := rfl
  have h : (engineTickInstance registryEnabled instPaused 5).2 = [(0, 90)] := by
    have hupd : updateInstance instPaused 5 = instPaused := by
      simp [updateInstance, instPaused]
    simp only [engineTickInstance, instPaused, if_true, hupd]
    show instanceWrites registryEnabled instPaused = [(0, 90)]
    simp only [instanceWrites, instPaused, List.filterMap, hres]
    simp only [clamp_angle, apply_orientation, hres, metaEnabled]
    norm_num [min_def, max_def]
  exact ⟨h, by rw [h]; simp⟩

/-- Amended claim C2: while an instance is paused (and still running),
each engine tick leaves the instance's positions exactly as they were —
no new positions are computed — but the engine still writes those frozen
positions to the driver for every enabled resolved target; the claim's
"no writes" holds only for instances that are not running at all. -/
theorem preset_paused_amended (r : Registry) (inst : PresetInstance) (now : ℝ)
    (hrun : inst.is_running = true) (hp : inst.is_paused = true) :
    engineTickInstance r inst now = (inst, instanceWrites r inst) ∧
    (∀ inst2 : PresetInstance, inst2.is_running = false →
      (engineTickInstance r inst2 now).2 = []) := by
  constructor
  · have hupd : updateInstance inst now = inst := by
      simp [updateInstance, hp]
    simp [engineTickInstance, hrun, hupd]
  · intro inst2 h2
    simp [engineTickInstance, h2]

/-- Witness for the amended C2: the concrete paused instance is left
untouched by the tick while its frozen position is the tick's write
list; a stopped copy produces no writes. -/
theorem preset_paused_amended_witness :
    engineTickInstance registryEnabled instPaused 5 =
      (instPaused, instanceWrites registryEnabled instPaused) ∧
    (engineTickInstance registryEnabled
      { instPaused with is_running := false } 5).2 = [] := by
  have h := preset_paused_amended registryEnabled instPaused 5 rfl rfl
  exact ⟨h.1, h.2 { instPaused with is_running := false } rfl⟩

/-! ## Claim C4: sine preset at elapsed 0.25 s -/

/-- The C4 parameters: center 90, depth 45, frequency 1 Hz, rate 1,
phase 0. -/
def paramsSineC4 : PresetParams :=
  { rate := 1, depth := 45, center := 90, frequency := 1, phase := 0 }

/-- Counterexample to C4 as stated: with center 90, depth 45,
frequency 1, rate 1, phase 0 and per-target offset 0, the angle emitted
at elapsed 0.25 s is strictly below 135 — the generator's sine argument
is `elapsed*frequency*rate` with no `2*pi` factor, so it is
`sin(0.25)`, not `sin(pi/2)`. -/
theorem sine_quarter_counterexample :
    sineWave paramsSineC4 0 0.25 < 135 ∧ sineWave paramsSineC4 0 0.25 ≠ 135 := by
  have harg : sineWave paramsSineC4 0 0.25 = 90 + Real.sin 0.25 * 45 := by
    simp only [sineWave, paramsSineC4]
    norm_num
  have hs : Real.sin 0.25 < 0.25 := Real.sin_lt (by norm_num)
  constructor
  · rw [harg]; nlinarith
  · rw [harg]; intro hcontra; nlinarith

/-- Amended claim C4: the Sine generator emits
`center + sin(elapsed*frequency*rate + phase + per_target_phase) * depth`,
so at elapsed 0.25 s with the C4 parameters the emitted angle is
`90 + 45*sin(0.25)` (about 101.1 degrees), which is strictly less
than the 135 the claim expects. -/
theorem sine_quarter_amended :
    sineWave paramsSineC4 0 0.25 = 90 + Real.sin 0.25 * 45 ∧
    90 + Real.sin 0.25 * 45 < 135 := by
  have harg : sineWave paramsSineC4 0 0.25 = 90 + Real.sin 0.25 * 45 := by
    simp only [sineWave, paramsSineC4]
    norm_num
  have hs : Real.sin 0.25 < 0.25 := Real.sin_lt (by norm_num)
  exact ⟨harg, by nlinarith⟩

/-! ## Claim C9: rate override outlives the instance -/

/-- Claim C9 (implicit frame effect): `preset_play(name, rate=r)` with
`r != 1` overwrites the stored definition's shared params object, so
after stopping the instance, a later `preset_play(name)` with the
default rate 1 runs at rate `r` — both the stored definition and the
new running instance carry `params.rate = r`. -/
theorem preset_play_rate_sticks (st : PresetEngineState) (name : String)
    (d : PresetDef) (tgts : List String) (r : ℝ) (loop1 : Bool) (now1 now2 : ℝ)
    (hdef : lookupKey st.defs name = some d) (hne : tgts.isEmpty = false)
    (hr : r ≠ 1) :
    (preset_play st name (some tgts) r loop1 now1).2 = true ∧
    (preset_play (preset_stop (preset_play st name (some tgts) r loop1 now1).1 name).1
      name (some tgts) 1 true now2).2 = true ∧
    (lookupKey (preset_play
        (preset_stop (preset_play st name (some tgts) r loop1 now1).1 name).1
        name (some tgts) 1 true now2).1.defs name).map
      (fun d2 => d2.params.rate) = some r ∧
    (lookupKey (preset_play
        (preset_stop (preset_play st name (some tgts) r loop1 now1).1 name).1
        name (some tgts) 1 true now2).1.running name).map
      (fun i => i.params.rate) = some r := by
  obtain ⟨hok1, hdefs1, _⟩ := preset_play_eval st name d tgts r loop1 now1 hdef hne
  rw [if_pos hr] at hdefs1
  have hdef2 : lookupKey
      (preset_stop (preset_play st name (some tgts) r loop1 now1).1 name).1.defs name =
      some { d with params := { { d.params with rate := r } with loop := loop1 } } := by
    rw [preset_stop_defs]; exact hdefs1
  obtain ⟨hok2, hdefs2, hrun2⟩ := preset_play_eval
    (preset_stop (preset_play st name (some tgts) r loop1 now1).1 name).1 name
    { d with params := { { d.params with rate := r } with loop := loop1 } }
    tgts 1 true now2 hdef2 hne
  rw [if_neg (by simp : ¬((1:ℝ) ≠ 1))] at hdefs2 hrun2
  refine ⟨hok1, hok2, ?_, ?_⟩
  · rw [hdefs2]; rfl
  · rw [hrun2]; rfl

/-- Engine state for the C9 witness: one sine definition named
"quiver" with default params. -/
def engineW : PresetEngineState :=
  { defs := [("quiver", { ptype := .sine, params := { } })], running := [] }

/-- Witness for C9: in the concrete engine, `preset_play("quiver",
rate=2)`, `preset_stop("quiver")`, then `preset_play("quiver")` with
the default rate 1 leaves both the stored definition and the fresh
instance at rate 2. -/
theorem preset_play_rate_sticks_witness :
    (lookupKey (preset_play
        (preset_stop (preset_play engineW "quiver" (some ["a"]) 2 true 0).1 "quiver").1
        "quiver" (some ["a"]) 1 true 10).1.defs "quiver").map
      (fun d2 => d2.params.rate) = some 2 ∧
    (lookupKey (preset_play
        (preset_stop (preset_play engineW "quiver" (some ["a"]) 2 true 0).1 "quiver").1
        "quiver" (some ["a"]) 1 true 10).1.running "quiver").map
      (fun i => i.params.rate) = some 2 := by
  have h := preset_play_rate_sticks engineW "quiver" { ptype := .sine, params := { } }
    ["a"] 2 true 0 10 rfl rfl (by norm_num)
  exact ⟨h.2.2.1, h.2.2.2⟩

/-! ## Safety system watchdog (`backend/safety_system.py`) -/

/-- Safety state machine states (`SafetyState` enum). -/
inductive SafetyState
  | normal
  | warning
  | emergency
  | fault
deriving DecidableEq, Repr

/-- Watchdog-relevant portion of `SafetySystem`: the enable flag, the
timeout in seconds, the `last_activity` timestamp, the current safety
state, and whether the registered timeout handler is the default
`go_safe_pose` (which, called with no argument, uses the default pose
name "park"). -/
structure WatchdogState where
  watchdog_enabled : Bool := false
  watchdog_timeout : ℝ := 5
  last_activity : ℝ := 0
  current_state : SafetyState := .normal
  handler_is_default_park : Bool := true

/-- `SafetySystem.watchdog_start(timeout_ms, on_timeout)`: convert the
timeout to seconds, record whether the handler argument was supplied
(`on_timeout or self.go_safe_pose` defaults to `go_safe_pose`, i.e. the
"park" pose), enable the watchdog and reset `last_activity`. -/
def watchdog_start (st : WatchdogState) (timeout_ms : ℝ) (customHandler : Bool)
    (now : ℝ) : WatchdogState :=
  { st with watchdog_timeout := timeout_ms / 1000,
            handler_is_default_park := !customHandler,
            watchdog_enabled := true,
            last_activity := now }

/-- `SafetySystem.watchdog_pet`: reset `last_activity` to now. -/
def watchdog_pet (st : WatchdogState) (now : ℝ) : WatchdogState :=
  { st with last_activity := now }

/-- One iteration of `SafetySystem._watchdog_worker`, taken at sample
time `now` (the loop wakes every 100 ms while enabled): when
`now - last_activity > watchdog_timeout` the timeout handler runs
(returned boolean), the state becomes `fault`, and `last_activity` is
reset to `now`; otherwise nothing changes. -/
def watchdogSample (st : WatchdogState) (now : ℝ) : WatchdogState × Bool :=
  if st.watchdog_enabled = true ∧ st.watchdog_timeout < now - st.last_activity then
    ({ st with current_state := .fault, last_activity := now }, true)
  else (st, false)

/-! ## Claim C5: watchdog fires once and rearms -/

/-- Claim C5: with the watchdog enabled with timeout T and not petted,
the first sample taken after `now - last_pet` exceeds T invokes the
timeout handler (by default `go_safe_pose` with the "park" pose),
transitions the safety state to `fault`, and resets `last_activity` to
the sample time; consequently a later sample within T of the firing one
does not fire again, while a sample more than T after it (with no pet in
between) does. -/
theorem watchdog_fires_once (st0 : WatchdogState) (tms : ℝ) (t0 now1 now2 : ℝ)
    (hfire : tms / 1000 < now1 - t0) :
    ((watchdog_start st0 tms false t0).handler_is_default_park = true) ∧
    (watchdogSample (watchdog_start st0 tms false t0) now1).2 = true ∧
    (watchdogSample (watchdog_start st0 tms false t0) now1).1.current_state = .fault ∧
    (watchdogSample (watchdog_start st0 tms false t0) now1).1.last_activity = now1 ∧
    (now2 - now1 ≤ tms / 1000 →
      (watchdogSample (watchdogSample (watchdog_start st0 tms false t0) now1).1 now2).2
        = false) ∧
    (tms / 1000 < now2 - now1 →
      (watchdogSample (watchdogSample (watchdog_start st0 tms false t0) now1).1 now2).2
        = true) := by
  have h1 : watchdogSample (watchdog_start st0 tms false t0) now1 =
      ({ watchdog_start st0 tms false t0 with
          current_state := .fault, last_activity := now1 }, true) := by
    simp only [watchdogSample, watchdog_start]
    rw [if_pos ⟨by trivial, hfire⟩]
  refine ⟨rfl, by rw [h1], by rw [h1], by rw [h1], ?_, ?_⟩
  · intro hle
    rw [h1]
    simp only [watchdogSample, watchdog_start]
    rw [if_neg]
    intro hcontra
    exact absurd hcontra.2 (by simpa using hle)
  · intro hgt
    rw [h1]
    simp only [watchdogSample, watchdog_start]
    rw [if_pos ⟨by trivial, hgt⟩]

/-- Witness for C5, matching the spec scenario: watchdog started with a
200 ms timeout at time 0 and never petted fires at the 0.3 s sample,
enters `fault`, and does not fire again at the 0.5 s sample (0.2 s
later); it would fire again at a sample 0.25 s after the first firing. -/
theorem watchdog_fires_once_witness :
    (watchdogSample (watchdog_start { } 200 false 0) 0.3).2 = true ∧
    (watchdogSample (watchdog_start { } 200 false 0) 0.3).1.current_state = .fault ∧
    (watchdogSample (watchdogSample (watchdog_start { } 200 false 0) 0.3).1 0.5).2
      = false ∧
    (watchdogSample (watchdogSample (watchdog_start { } 200 false 0) 0.3).1 0.55).2
      = true := by
  have h := watchdog_fires_once { } 200 0 0.3 0.5 (by norm_num)
  have h2 := watchdog_fires_once { } 200 0 0.3 0.55 (by norm_num)
  exact ⟨h.2.1, h.2.2.1, h.2.2.2.2.1 (by norm_num), h2.2.2.2.2.2 (by norm_num)⟩

/-! ## Timeline engine (`backend/timeline_system.py`) -/

/-- Easing kinds (`EaseType` enum). -/
inductive EaseType
  | linear
  | ease_in
  | ease_out
  | ease_in_out
  | cubic_bezier
  | bounce
  | elastic
deriving DecidableEq, Repr

/-- Keyframe (`Keyframe` dataclass) with the dataclass defaults. -/
structure Keyframe where
  time_ms : ℝ
  value : ℝ
  ease : EaseType := .linear
  tension : ℝ := 0
  bezier_cp1 : ℝ × ℝ := (0.25, 0.1)
  bezier_cp2 : ℝ × ℝ := (0.25, 1)

/-- `EasingFunctions.ease_in_quad`. -/
def easeInQuad (t : ℝ) : ℝ := t * t

/-- `EasingFunctions.ease_out_quad`. -/
def easeOutQuad (t : ℝ) : ℝ := t * (2 - t)

/-- `EasingFunctions.ease_in_out_quad`. -/
def easeInOutQuad (t : ℝ) : ℝ :=
  if t < 0.5 then 2 * t * t else -1 + (4 - 2 * t) * t

/-- `EasingFunctions.ease_in_cubic`. -/
def easeInCubic (t : ℝ) : ℝ := t * t * t

/-- `EasingFunctions.ease_out_cubic` (the source shifts `t` by 1). -/
def easeOutCubic (t : ℝ) : ℝ := (t - 1) * (t - 1) * (t - 1) + 1

/-- `EasingFunctions.ease_in_out_cubic`. -/
def easeInOutCubic (t : ℝ) : ℝ :=
  if t < 0.5 then 4 * t * t * t
  else 1 + (t - 1) * (2 * (t - 1)) * (2 * (t - 1))

/-- `EasingFunctions.bounce_out`: four-segment parabola with
coefficient 7.5625. -/
def bounceOut (t : ℝ) : ℝ :=
  if t < 1 / 2.75 then 7.5625 * t * t
  else if t < 2 / 2.75 then 7.5625 * (t - 1.5 / 2.75) * (t - 1.5 / 2.75) + 0.75
  else if t < 2.5 / 2.75 then 7.5625 * (t - 2.25 / 2.75) * (t - 2.25 / 2.75) + 0.9375
  else 7.5625 * (t - 2.625 / 2.75) * (t - 2.625 / 2.75) + 0.984375

/-- `EasingFunctions.elastic_out`: `2^(-10t) * sin((t-0.1)*5*pi) + 1`,
with the endpoints returned unchanged. -/
def elasticOut (t : ℝ) : ℝ :=
  if t = 0 ∨ t = 1 then t
  else (2 : ℝ) ^ (-10 * t) * Real.sin ((t - 0.1) * 5 * Real.pi) + 1

/-- `EasingFunctions.cubic_bezier`: the source's simplified polynomial
in `t` over the control points' y-components. -/
def cubicBezier (t : ℝ) (cp1 cp2 : ℝ × ℝ) : ℝ :=
  (1 - t) ^ 3 * 0 + 3 * (1 - t) ^ 2 * t * cp1.2 + 3 * (1 - t) * t ^ 2 * cp2.2 +
    t ^ 3 * 1

/-- `EasingFunctions.apply_easing`: clamp `t` to `[0, 1]`, then dispatch;
the quadratic/cubic pairs are blended by `tension`.  (The source's
`if bezier_cp1 and bezier_cp2` guard is always true for the tuples the
interpolator passes, Python tuples being truthy.) -/
def applyEasing (e : EaseType) (t0 : ℝ) (tension : ℝ) (cp1 cp2 : ℝ × ℝ) : ℝ :=
  let t := max 0 (min 1 t0)
  match e with
  | .linear => t
  | .ease_in => easeInQuad t * (1 - tension) + easeInCubic t * tension
  | .ease_out => easeOutQuad t * (1 - tension) + easeOutCubic t * tension
  | .ease_in_out => easeInOutQuad t * (1 - tension) + easeInOutCubic t * tension
  | .bounce => bounceOut t
  | .elastic => elasticOut t
  | .cubic_bezier => cubicBezier t cp1 cp2

/-- Value of the interpolation segment from `k1` to `k2` at time `t`:
the time ratio is eased with the DESTINATION keyframe's easing
parameters (`TimelineEngine._interpolate_track_value`, interior case). -/
def segValue (k1 k2 : Keyframe) (t : ℝ) : ℝ :=
  k1.value + (k2.value - k1.value) *
    applyEasing k2.ease ((t - k1.time_ms) / (k2.time_ms - k1.time_ms)) k2.tension
      k2.bezier_cp1 k2.bezier_cp2

/-- The interior scan of `_interpolate_track_value`: the first adjacent
pair bracketing `t` wins; a zero-length segment steps to the destination
value. -/
def scanPairs (t : ℝ) : List Keyframe → Option ℝ
  | k1 :: k2 :: rest =>
      if k1.time_ms ≤ t ∧ t ≤ k2.time_ms then
        if k2.time_ms = k1.time_ms then some k2.value else some (segValue k1 k2 t)
      else scanPairs t (k2 :: rest)
  | _ => none

/-- `TimelineEngine._interpolate_track_value`: empty tracks yield
`none`; times at or before the first keyframe yield its value, at or
after the last keyframe the last value; otherwise the bracketing-pair
scan runs. -/
def interpolateTrackValue (kfs : List Keyframe) (t : ℝ) : Option ℝ :=
  match kfs.head?, kfs.getLast? with
  | some k0, some kl =>
      if t ≤ k0.time_ms then some k0.value
      else if kl.time_ms ≤ t then some kl.value
      else scanPairs t kfs
  | _, _ => none

/-- Linear interpolation used by `simplify_track`:
`prev.value + (next.value - prev.value) * (t - prev.time)/(next.time - prev.time)`. -/
def linValue (a b : Keyframe) (t : ℝ) : ℝ :=
  a.value + (b.value - a.value) * ((t - a.time_ms) / (b.time_ms - a.time_ms))

/-- Interior loop of `TimelineEngine.simplify_track`: walk the interior
keyframes, keeping one exactly when its value deviates from the linear
interpolation between the LAST KEPT keyframe and its ORIGINAL immediate
successor by more than the tolerance; the final keyframe is always
appended. -/
def simpAux (tol : ℝ) : Keyframe → List Keyframe → List Keyframe
  | _, [] => []
  | _, [k] => [k]
  | prev, curr :: next :: rest =>
      if tol < |curr.value - linValue prev next curr.time_ms| then
        curr :: simpAux tol curr (next :: rest)
      else simpAux tol prev (next :: rest)

/-- `TimelineEngine.simplify_track` on a keyframe list: tracks with
fewer than 3 keyframes are untouched (count 0); otherwise the first
keyframe is always kept, the interior is filtered by `simpAux`, and the
returned count is the number of keyframes dropped. -/
def simplify_track (tol : ℝ) (kfs : List Keyframe) : List Keyframe × ℕ :=
  if kfs.length < 3 then (kfs, 0)
  else
    match kfs with
    | [] => (kfs, 0)
    | k0 :: rest =>
        let s := k0 :: simpAux tol k0 rest
        (s, kfs.length - s.length)

/-! ## Claim C6: keyframe interpolation -/

theorem scanPairs_bracket (t : ℝ) :
    ∀ (i : ℕ) (l : List Keyframe),
      l.Pairwise (fun a b => a.time_ms < b.time_ms) →
      ∀ (hi : i + 1 < l.length),
        l[i].time_ms < t → t ≤ l[i + 1].time_ms →
        scanPairs t l = some (segValue l[i] l[i + 1] t) := by
  intro i
  induction i with
  | zero =>
      intro l hp hi h1 h2
      cases l with
      | nil => simp at hi
      | cons k1 l2 =>
          cases l2 with
          | nil => simp at hi
          | cons k2 rest =>
              simp only [List.getElem_cons_zero, List.getElem_cons_succ] at h1 h2 ⊢
              have hne : k2.time_ms ≠ k1.time_ms := ne_of_gt (lt_of_lt_of_le h1 h2)
              simp only [scanPairs, if_pos (And.intro (le_of_lt h1) h2), if_neg hne]
  | succ i ih =>
      intro l hp hi h1 h2
      cases l with
      | nil => simp at hi
      | cons k1 l2 =>
          cases l2 with
          | nil => simp at hi
          | cons k2 rest =>
              have hi2 : i + 1 < (k2 :: rest).length := by simpa using hi
              have hg1 : (k1 :: k2 :: rest)[i + 1] = (k2 :: rest)[i] := by simp
              have hg2 : (k1 :: k2 :: rest)[i + 1 + 1] = (k2 :: rest)[i + 1] := by simp
              rw [hg1] at h1
              rw [hg2] at h2
              have hk2 : k2.time_ms ≤ (k2 :: rest)[i].time_ms := by
                cases Nat.eq_zero_or_pos i with
                | inl h0 => subst h0; simp
                | inr hpos =>
                    have hpair := List.pairwise_iff_getElem.mp hp.of_cons 0 i
                      (by omega) (by omega) hpos
                    simpa using hpair.le
              have hskip : ¬(k1.time_ms ≤ t ∧ t ≤ k2.time_ms) := by
                intro hc
                exact absurd (lt_of_le_of_lt hk2 h1) (not_lt.mpr hc.2)
              simp only [scanPairs, if_neg hskip]
              rw [ih (k2 :: rest) hp.of_cons hi2 h1 h2, hg1, hg2]

theorem interp_before (kfs : List Keyframe) (k0 : Keyframe) (t : ℝ)
    (h : kfs.head? = some k0) (ht : t ≤ k0.time_ms) :
    interpolateTrackValue kfs t = some k0.value := by
  cases kfs with
  | nil => cases h
  | cons a rest =>
      have ha : a = k0 := by simpa using h
      subst ha
      cases hkl : (a :: rest).getLast? with
      | none => rw [List.getLast?_eq_none_iff] at hkl; cases hkl
      | some kl =>
          simp only [interpolateTrackValue, List.head?_cons, hkl]
          rw [if_pos ht]

theorem interp_after (kfs : List Keyframe) (kl : Keyframe) (t : ℝ)
    (hp : kfs.Pairwise (fun a b => a.time_ms < b.time_ms))
    (h : kfs.getLast? = some kl) (ht : kl.time_ms ≤ t) :
    interpolateTrackValue kfs t = some kl.value := by
  cases kfs with
  | nil => cases h
  | cons a rest =>
      cases rest with
      | nil =>
          have ha : a = kl := by
            have : (([a] : List Keyframe)).getLast? = some a := rfl
            rw [this] at h
            exact Option.some_injective _ h
          subst ha
          simp only [interpolateTrackValue, List.head?_cons, h]
          by_cases htle : t ≤ a.time_ms
          · rw [if_pos htle]
          · rw [if_neg htle, if_pos ht]
      | cons b rest2 =>
          have hk2 : (b :: rest2).getLast? = some kl := by
            rw [← List.getLast?_cons_cons (a := a)]
            exact h
          have hklmem : kl ∈ b :: rest2 := by
            obtain ⟨hne, heq⟩ := List.mem_getLast?_eq_getLast
              (l := b :: rest2) (x := kl) (by rw [hk2]; rfl)
            rw [heq]
            exact List.getLast_mem hne
          have halt : a.time_ms < kl.time_ms := (List.pairwise_cons.mp hp).1 kl hklmem
          have hnle : ¬(t ≤ a.time_ms) := fun hc =>
            absurd (lt_of_lt_of_le halt ht) (not_lt.mpr hc)
          simp only [interpolateTrackValue, List.head?_cons, h]
          rw [if_neg hnle, if_pos ht]

theorem interp_interior (kfs : List Keyframe) (kl : Keyframe) (i : ℕ) (t : ℝ)
    (hp : kfs.Pairwise (fun a b => a.time_ms < b.time_ms))
    (hi : i + 1 < kfs.length)
    (hkl : kfs.getLast? = some kl) (hlt : t < kl.time_ms)
    (h1 : kfs[i].time_ms < t) (h2 : t ≤ kfs[i + 1].time_ms) :
    interpolateTrackValue kfs t = some (segValue kfs[i] kfs[i + 1] t) := by
  cases kfs with
  | nil => cases hkl
  | cons a rest =>
      have ha0 : a.time_ms ≤ (a :: rest)[i].time_ms := by
        cases Nat.eq_zero_or_pos i with
        | inl h0 => subst h0; simp
        | inr hpos =>
            have hpair := List.pairwise_iff_getElem.mp hp 0 i (by omega) (by omega) hpos
            simpa using hpair.le
      have hnle : ¬(t ≤ a.time_ms) := fun hc =>
        absurd (lt_of_le_of_lt ha0 h1) (not_lt.mpr hc)
      have hnge : ¬(kl.time_ms ≤ t) := not_le.mpr hlt
      simp only [interpolateTrackValue, List.head?_cons, hkl]
      rw [if_neg hnle, if_neg hnge]
      exact scanPairs_bracket t i (a :: rest) hp hi h1 h2

/-- Claim C6: for a track with a non-empty keyframe list (strictly
sorted by time, the track invariant) and every time t, the interpolated
value equals the first keyframe's value at or before the first keyframe
time, the last keyframe's value at or after the last keyframe time, and
otherwise, for the bracketing pair `(kf_a, kf_b)` found by the scan,
`kf_a.value + (kf_b.value - kf_a.value) * ease(kf_b.ease, u, kf_b.tension,
kf_b.cp1, kf_b.cp2)` with `u = (t - kf_a.time)/(kf_b.time - kf_a.time)` —
the easing parameters come from the destination keyframe. -/
theorem interpolate_track_spec :
    (∀ (kfs : List Keyframe) (k0 : Keyframe) (t : ℝ),
      kfs.head? = some k0 → t ≤ k0.time_ms →
      interpolateTrackValue kfs t = some k0.value) ∧
    (∀ (kfs : List Keyframe) (kl : Keyframe) (t : ℝ),
      kfs.Pairwise (fun a b => a.time_ms < b.time_ms) →
      kfs.getLast? = some kl → kl.time_ms ≤ t →
      interpolateTrackValue kfs t = some kl.value) ∧
    (∀ (kfs : List Keyframe) (kl : Keyframe) (i : ℕ) (t : ℝ),
      kfs.Pairwise (fun a b => a.time_ms < b.time_ms) →
      ∀ (hi : i + 1 < kfs.length),
      kfs.getLast? = some kl → t < kl.time_ms →
      kfs[i].time_ms < t → t ≤ kfs[i + 1].time_ms →
      interpolateTrackValue kfs t = some (segValue kfs[i] kfs[i + 1] t)) :=
  ⟨interp_before, interp_after,
    fun kfs kl i t hp hi hkl hlt h1 h2 =>
      interp_interior kfs kl i t hp hi hkl hlt h1 h2⟩

/-- First keyframe of the C6 witness: `(0 ms, 60, Linear)`. -/
def kfDemoA : Keyframe := { time_ms := 0, value := 60 }

/-- Second keyframe of the C6 witness: `(1000 ms, 120, EaseInOut)`,
tension 0. -/
def kfDemoB : Keyframe := { time_ms := 1000, value := 120, ease := .ease_in_out }

/-- Witness for C6, the claim's particular case: keyframes
`(0, 60, Linear)` and `(1000, 120, EaseInOut)` with tension 0
interpolate to 90 at t = 500 ms. -/
theorem interpolate_track_spec_witness :
    interpolateTrackValue [kfDemoA, kfDemoB] 500 = some 90 := by
  have h := interpolate_track_spec.2.2 [kfDemoA, kfDemoB] kfDemoB 0 500
    (by norm_num [List.pairwise_cons, kfDemoA, kfDemoB])
    (by simp) rfl (by norm_num [kfDemoB])
    (by norm_num [kfDemoA]) (by norm_num [kfDemoB])
  rw [h]
  simp only [List.getElem_cons_zero, List.getElem_cons_succ]
  have heval : segValue kfDemoA kfDemoB 500 = 90 := by
    have hratio : (500 - kfDemoA.time_ms) / (kfDemoB.time_ms - kfDemoA.time_ms)
        = 0.5 := by
      norm_num [kfDemoA, kfDemoB]
    simp only [segValue, hratio]
    have hease : applyEasing kfDemoB.ease 0.5 kfDemoB.tension
        kfDemoB.bezier_cp1 kfDemoB.bezier_cp2 = 0.5 := by
      have hclamp : max (0:ℝ) (min 1 0.5) = 0.5 := by
        norm_num [min_def, max_def]
      simp only [applyEasing, kfDemoB, hclamp, easeInOutQuad, easeInOutCubic]
      norm_num
    rw [hease]
    norm_num [kfDemoA, kfDemoB]
  rw [heval]

/-! ## Claim C7: simplify-track round trip -/

theorem simpAux_sublist (tol : ℝ) (l : List Keyframe) :
    ∀ prev : Keyframe, (simpAux tol prev l).Sublist l := by
  induction l with
  | nil => intro prev; simp [simpAux]
  | cons curr rest ih =>
      intro prev
      cases rest with
      | nil => simp [simpAux]
      | cons next rest2 =>
          by_cases h : tol < |curr.value - linValue prev next curr.time_ms|
          · simp only [simpAux, if_pos h]
            exact List.Sublist.cons₂ curr (ih curr)
          · simp only [simpAux, if_neg h]
            exact List.Sublist.cons curr (ih prev)

theorem simpAux_ne_nil (tol : ℝ) (l : List Keyframe) (hl : l ≠ []) :
    ∀ prev : Keyframe, simpAux tol prev l ≠ [] := by
  induction l with
  | nil => exact absurd rfl hl
  | cons curr rest ih =>
      intro prev
      cases rest with
      | nil => simp [simpAux]
      | cons next rest2 =>
          by_cases h : tol < |curr.value - linValue prev next curr.time_ms|
          · simp only [simpAux, if_pos h]
            exact List.cons_ne_nil _ _
          · simp only [simpAux, if_neg h]
            exact ih (by simp) prev

theorem simpAux_getLast (tol : ℝ) (l : List Keyframe) (hl : l ≠ []) :
    ∀ prev : Keyframe, (simpAux tol prev l).getLast? = l.getLast? := by
  induction l with
  | nil => exact absurd rfl hl
  | cons curr rest ih =>
      intro prev
      cases rest with
      | nil => simp [simpAux]
      | cons next rest2 =>
          by_cases h : tol < |curr.value - linValue prev next curr.time_ms|
          · simp only [simpAux, if_pos h]
            have hne : simpAux tol curr (next :: rest2) ≠ [] :=
              simpAux_ne_nil tol (next :: rest2) (by simp) curr
            cases hs : simpAux tol curr (next :: rest2) with
            | nil => exact absurd hs hne
            | cons s0 srest =>
                rw [List.getLast?_cons_cons, ← hs, ih (by simp) curr,
                  List.getLast?_cons_cons]
          · simp only [simpAux, if_neg h]
            rw [ih (by simp) prev, List.getLast?_cons_cons]

theorem simpAux_removed (tol : ℝ) (l : List Keyframe) :
    ∀ (prev kf : Keyframe), kf ∈ l → kf ∉ simpAux tol prev l →
      ∃ p n, p ∈ prev :: simpAux tol prev l ∧ List.IsInfix [kf, n] l ∧
        |kf.value - linValue p n kf.time_ms| ≤ tol := by
  induction l with
  | nil => intro prev kf hmem; cases hmem
  | cons curr rest ih =>
      intro prev kf hmem hnot
      cases rest with
      | nil =>
          have : kf = curr := by
            cases hmem with
            | head => rfl
            | tail _ h => cases h
          subst this
          exact absurd (by simp [simpAux]) hnot
      | cons next rest2 =>
          by_cases h : tol < |curr.value - linValue prev next curr.time_ms|
          · rw [show simpAux tol prev (curr :: next :: rest2) =
                curr :: simpAux tol curr (next :: rest2) from by
                  simp only [simpAux, if_pos h]] at hnot ⊢
            cases hmem with
            | head => exact absurd (List.mem_cons_self _ _) hnot
            | tail _ hmem2 =>
                have hnot2 : kf ∉ simpAux tol curr (next :: rest2) := fun hc =>
                  hnot (List.mem_cons_of_mem _ hc)
                obtain ⟨p, n, hkept, hinf, hdev⟩ := ih curr kf hmem2 hnot2
                refine ⟨p, n, ?_, List.infix_cons hinf, hdev⟩
                cases hkept with
                | head => exact List.mem_cons_of_mem _ (List.mem_cons_self _ _)
                | tail _ hk2 =>
                    exact List.mem_cons_of_mem _ (List.mem_cons_of_mem _ hk2)
          · rw [show simpAux tol prev (curr :: next :: rest2) =
                simpAux tol prev (next :: rest2) from by
                  simp only [simpAux, if_neg h]] at hnot ⊢
            cases hmem with
            | head =>
                refine ⟨prev, next, List.mem_cons_self _ _, ?_, not_lt.mp h⟩
                exact ⟨[], rest2, rfl⟩
            | tail _ hmem2 =>
                obtain ⟨p, n, hkept, hinf, hdev⟩ := ih prev kf hmem2 hnot
                exact ⟨p, n, hkept, List.infix_cons hinf, hdev⟩

/-- Amended claim C7: for every track with at least two keyframes and
every tolerance, `simplify_track` never removes the first or last
keyframe, only drops keyframes (the result is a sublist), returns the
number of keyframes removed, and every removed keyframe's value lies
within the tolerance of the linear interpolation (in time) between the
most recently RETAINED keyframe before it (which is in the simplified
track) and its ORIGINAL immediate successor — which may itself have been
removed.  (The original claim measured against the removed keyframe's
preserved neighbours in the simplified track; the counterexample shows
tolerance errors can accumulate past that bound.) -/
theorem simplify_track_spec (tol : ℝ) (kfs : List Keyframe)
    (h2 : 2 ≤ kfs.length) :
    (simplify_track tol kfs).1.head? = kfs.head? ∧
    (simplify_track tol kfs).1.getLast? = kfs.getLast? ∧
    (simplify_track tol kfs).1.Sublist kfs ∧
    (simplify_track tol kfs).2 = kfs.length - (simplify_track tol kfs).1.length ∧
    (∀ kf ∈ kfs, kf ∉ (simplify_track tol kfs).1 →
      ∃ p n, p ∈ (simplify_track tol kfs).1 ∧ List.IsInfix [kf, n] kfs ∧
        |kf.value - linValue p n kf.time_ms| ≤ tol) := by
  by_cases hlen : kfs.length < 3
  · have hres : simplify_track tol kfs = (kfs, 0) := by
      simp [simplify_track, hlen]
    rw [hres]
    refine ⟨rfl, rfl, List.Sublist.refl kfs, by simp, ?_⟩
    intro kf hmem hnot
    exact absurd hmem hnot
  · cases kfs with
    | nil => simp at h2
    | cons k0 rest =>
        have hrest : rest ≠ [] := by
          intro hnil
          rw [hnil] at hlen
          simp at hlen
        have hres : simplify_track tol (k0 :: rest) =
            (k0 :: simpAux tol k0 rest,
             (k0 :: rest).length - (k0 :: simpAux tol k0 rest).length) := by
          simp only [simplify_track, if_neg hlen]
        rw [hres]
        refine ⟨rfl, ?_, List.Sublist.cons₂ k0 (simpAux_sublist tol rest k0), rfl, ?_⟩
        · have hne : simpAux tol k0 rest ≠ [] := simpAux_ne_nil tol rest hrest k0
          cases hs : simpAux tol k0 rest with
          | nil => exact absurd hs hne
          | cons s0 srest =>
              cases rest with
              | nil => exact absurd rfl hrest
              | cons r0 rest2 =>
                  rw [List.getLast?_cons_cons, ← hs,
                    simpAux_getLast tol (r0 :: rest2) (by simp) k0,
                    List.getLast?_cons_cons]
        · intro kf hmem hnot
          have hkf0 : kf ≠ k0 := fun hc => by
            subst hc
            exact hnot (List.mem_cons_self _ _)
          have hmem2 : kf ∈ rest := by
            cases hmem with
            | head => exact absurd rfl hkf0
            | tail _ h => exact h
          have hnot2 : kf ∉ simpAux tol k0 rest := fun hc =>
            hnot (List.mem_cons_of_mem _ hc)
          obtain ⟨p, n, hkept, hinf, hdev⟩ := simpAux_removed tol rest k0 kf hmem2 hnot2
          exact ⟨p, n, hkept, List.infix_cons hinf, hdev⟩

/-- Counterexample keyframe (0 ms, 0). -/
def c7k0 : Keyframe := { time_ms := 0, value := 0 }

/-- Counterexample keyframe (1 ms, 1.5): removed by `simplify_track`. -/
def c7k1 : Keyframe := { time_ms := 1, value := 1.5 }

/-- Counterexample keyframe (2 ms, 1): removed by `simplify_track`. -/
def c7k2 : Keyframe := { time_ms := 2, value := 1 }

/-- Counterexample keyframe (3 ms, 0). -/
def c7k3 : Keyframe := { time_ms := 3, value := 0 }

/-- The C7 counterexample track. -/
def c7kfs : List Keyframe := [c7k0, c7k1, c7k2, c7k3]

/-- Counterexample to C7 as stated: with tolerance 1,
`simplify_track` reduces the track to `[c7k0, c7k3]` (removing 2
keyframes), so the removed keyframe `c7k1 = (1 ms, 1.5)` has preserved
neighbours `c7k0 = (0,0)` and `c7k3 = (3,0)` in the simplified track —
but its value 1.5 deviates from their linear interpolation at t = 1
(which is 0) by 1.5, strictly more than the tolerance 1. -/
theorem simplify_roundtrip_counterexample :
    (simplify_track 1 c7kfs).1 = [c7k0, c7k3] ∧
    (simplify_track 1 c7kfs).2 = 2 ∧
    c7k1 ∈ c7kfs ∧ c7k1 ∉ [c7k0, c7k3] ∧
    ¬(|c7k1.value - linValue c7k0 c7k3 c7k1.time_ms| ≤ 1) := by
  have hd1 : ¬((1:ℝ) < |c7k1.value - linValue c7k0 c7k2 c7k1.time_ms|) := by
    have hv : c7k1.value - linValue c7k0 c7k2 c7k1.time_ms = 1 := by
      norm_num [c7k0, c7k1, c7k2, linValue]
    rw [hv, abs_one]
    norm_num
  have hd2 : ¬((1:ℝ) < |c7k2.value - linValue c7k0 c7k3 c7k2.time_ms|) := by
    have hv : c7k2.value - linValue c7k0 c7k3 c7k2.time_ms = 1 := by
      norm_num [c7k0, c7k2, c7k3, linValue]
    rw [hv, abs_one]
    norm_num
  have haux : simpAux 1 c7k0 [c7k1, c7k2, c7k3] = [c7k3] := by
    rw [show simpAux 1 c7k0 [c7k1, c7k2, c7k3] = simpAux 1 c7k0 [c7k2, c7k3] from by
      simp only [simpAux, if_neg hd1]]
    rw [show simpAux 1 c7k0 [c7k2, c7k3] = simpAux 1 c7k0 [c7k3] from by
      simp only [simpAux, if_neg hd2]]
    rfl
  have hres : simplify_track 1 c7kfs = ([c7k0, c7k3], 2) := by
    simp only [simplify_track, c7kfs]
    rw [if_neg (by norm_num)]
    rw [haux]
    simp
  refine ⟨by rw [hres], by rw [hres], by simp [c7kfs], ?_, ?_⟩
  · intro hc
    simp only [List.mem_cons, List.not_mem_nil, or_false] at hc
    rcases hc with hcc | hcc
    · have := congrArg Keyframe.value hcc
      norm_num [c7k0, c7k1] at this
    · have := congrArg Keyframe.value hcc
      norm_num [c7k1, c7k3] at this
  · have hv : c7k1.value - linValue c7k0 c7k3 c7k1.time_ms = 1.5 := by
      norm_num [c7k0, c7k1, c7k3, linValue]
    rw [hv]
    rw [show |(1.5:ℝ)| = 1.5 from abs_of_pos (by norm_num)]
    norm_num

/-- Witness for the amended C7 at the concrete track: the first and
last keyframes survive and the removal count is the length difference. -/
theorem simplify_track_spec_witness :
    (simplify_track 1 c7kfs).1.head? = c7kfs.head? ∧
    (simplify_track 1 c7kfs).1.getLast? = c7kfs.getLast? ∧
    (simplify_track 1 c7kfs).2 = c7kfs.length - (simplify_track 1 c7kfs).1.length := by
  have h := simplify_track_spec 1 c7kfs (by norm_num [c7kfs])
  exact ⟨h.1, h.2.1, h.2.2.2.1⟩

end RaspZero
